import Mathlib

/-!
Verification development for the widget file-manager and widget-search
controllers (CommonNinja embeddable-ai-tools MCP server).

The definitions below are a shallow embedding of the TypeScript source:
  * `controllers/widget-file-manager.controller.ts`
    (`parseLineRanges`, `extractLines`, `searchInMongoDB`'s per-line match
    loop, `writeFile`, `viewFile`, `deleteFile`, `searchFiles`,
    `replaceLines`)
  * `controllers/widget-search.controller.ts`
    (`runVectorSearchForWidget`'s aggregation pipeline, `search`)

JavaScript strings are modelled as Lean `String`s, JS numbers occurring as
line indices as `Nat`/`Int`, fallible collaborator calls (AWS Lambda,
MongoDB, OpenAI) as `Except String` values passed in as parameters, and
thrown exceptions as `Except.error`.
-/

/- ### A fragment of JavaScript regular expressions

`replaceLines` builds `new RegExp(pattern, 's')` and `searchInMongoDB`
builds `new RegExp(query, 'gi')`.  We model the regex fragment consisting of
literal characters, `\`-escapes, `.` (with the dotall `s` flag, so it also
matches a newline), grouping `( … )`, alternation `|`, and the postfix
operators `*`, `+`, `?` (a `?` directly after a quantifier is the lazy
marker, which does not change whether a match exists).  As in Annex B of the
JS spec, a `\x7b` or `\x7d` that does not form a quantifier is a literal
character; the parser below always treats them as literals, which agrees
with JS on every pattern evaluated in this file.  Matching is by Brzozowski
derivatives, and `RegExp.prototype.test` semantics (a match anywhere in the
subject) is `reSearch`. -/

inductive RE : Type where
  | fail : RE
  | eps : RE
  | chr : Char → RE
  | anyChar : RE
  | alt : RE → RE → RE
  | cat : RE → RE → RE
  | star : RE → RE
deriving Repr, DecidableEq

def RE.nullable : RE → Bool
  | .fail => false
  | .eps => true
  | .chr _ => false
  | .anyChar => false
  | .alt a b => a.nullable || b.nullable
  | .cat a b => a.nullable && b.nullable
  | .star _ => true

def RE.deriv : RE → Char → RE
  | .fail, _ => .fail
  | .eps, _ => .fail
  | .chr c, d => if c = d then .eps else .fail
  | .anyChar, _ => .eps
  | .alt a b, d => .alt (a.deriv d) (b.deriv d)
  | .cat a b, d =>
      if a.nullable then .alt (.cat (a.deriv d) b) (b.deriv d)
      else .cat (a.deriv d) b
  | .star a, d => .cat (a.deriv d) (.star a)

/-- Does `re` match some prefix of `cs`? -/
def rePrefixMatch : RE → List Char → Bool
  | re, [] => re.nullable
  | re, c :: cs => re.nullable || rePrefixMatch (re.deriv c) cs

/-- Does `re` match some substring of `cs`?  This is the semantics of
`RegExp.prototype.test` (a regex with neither anchors nor the `y` flag
searches every start position). -/
def reSearch : RE → List Char → Bool
  | re, [] => rePrefixMatch re []
  | re, c :: cs => rePrefixMatch re (c :: cs) || reSearch re cs

/- Pattern parser for the fragment.  `fuel` only serves the termination
checker; `parsePattern` supplies more fuel than the pattern has
characters, so it is never exhausted on the patterns we evaluate. -/

mutual

/-- Parse one atom followed by its postfix quantifiers; `none` on `)`,
`|` or end of input. -/
def parseAtom (fuel : Nat) (cs : List Char) : Option (RE × List Char) :=
  match fuel with
  | 0 => none
  | fuel + 1 =>
    match cs with
    | [] => none
    | ')' :: _ => none
    | '|' :: _ => none
    | '(' :: rest =>
        let (re, rest') := parseAlt fuel rest
        match rest' with
        | ')' :: rest'' => some (parsePostfix re rest'')
        | _ => some (parsePostfix re rest')
    | '\\' :: c :: rest => some (parsePostfix (.chr c) rest)
    | '\\' :: [] => some (.chr '\\', [])
    | '.' :: rest => some (parsePostfix .anyChar rest)
    | c :: rest => some (parsePostfix (.chr c) rest)

/-- Apply postfix `*`, `+`, `?` (each optionally followed by a lazy `?`,
which is irrelevant to match existence). -/
def parsePostfix (re : RE) (cs : List Char) : RE × List Char :=
  match cs with
  | '*' :: '?' :: rest => (.star re, rest)
  | '*' :: rest => (.star re, rest)
  | '+' :: '?' :: rest => (.cat re (.star re), rest)
  | '+' :: rest => (.cat re (.star re), rest)
  | '?' :: '?' :: rest => (.alt re .eps, rest)
  | '?' :: rest => (.alt re .eps, rest)
  | _ => (re, cs)

/-- Parse a concatenation of atoms. -/
def parseSeq (fuel : Nat) (cs : List Char) : RE × List Char :=
  match fuel with
  | 0 => (.eps, cs)
  | fuel + 1 =>
    match parseAtom fuel cs with
    | none => (.eps, cs)
    | some (re, rest) =>
        let (re', rest') := parseSeq fuel rest
        (.cat re re', rest')

/-- Parse alternatives separated by `|`. -/
def parseAlt (fuel : Nat) (cs : List Char) : RE × List Char :=
  match fuel with
  | 0 => (.eps, cs)
  | fuel + 1 =>
    let (re, rest) := parseSeq fuel cs
    match rest with
    | '|' :: rest' =>
        let (re', rest'') := parseAlt fuel rest'
        (.alt re re', rest'')
    | _ => (re, rest)

end

/-- Compile a JS pattern string (fragment above) to an `RE`. -/
def parsePattern (pattern : String) : RE :=
  (parseAlt (2 * pattern.length + 2) pattern.toList).1

/-- `new RegExp(pattern, 's').test(subject)`: dotall search anywhere. -/
def jsRegexTest (pattern subject : String) : Bool :=
  reSearch (parsePattern pattern) subject.toList

/- ### The pattern built by `replaceLines`

Source (widget-file-manager.controller.ts):
  `const searchPattern = args.search.replace(/\.\.\./g, '.*?');`
  `const searchRegex = new RegExp(searchPattern, 's');`
Every occurrence of the three-character token `...` is replaced,
left-to-right and without overlap, by `.*?`; no other character of the
caller-supplied text is touched (in particular, regex metacharacters are
NOT escaped). -/

def replaceEllipsisChars : List Char → List Char
  | '.' :: '.' :: '.' :: rest => '.' :: '*' :: '?' :: replaceEllipsisChars rest
  | c :: rest => c :: replaceEllipsisChars rest
  | [] => []

def buildSearchPattern (search : String) : String :=
  String.mk (replaceEllipsisChars search.toList)

/- ### Character-level models of the JavaScript string operations

The controllers use `content.split('\n')`, `lines.join('\n')`,
`s.trim()`, `s.includes('-')` and template interpolation.  They are
modelled on `List Char` so that every definition in this file evaluates
inside the Lean kernel. -/

/-- `str.split(sep)` for a one-character separator: `"" → [""]`, and a
trailing separator yields a trailing empty segment, as in JS. -/
def splitOnCharList (sep : Char) : List Char → List (List Char)
  | [] => [[]]
  | c :: rest =>
      if c = sep then [] :: splitOnCharList sep rest
      else
        match splitOnCharList sep rest with
        | [] => [[c]]
        | seg :: segs => (c :: seg) :: segs

/-- `content.split('\n')`. -/
def splitLines (s : String) : List String :=
  (splitOnCharList '\n' s.toList).map String.mk

/-- `arr.join('\n')`. -/
def joinLines (ls : List String) : String :=
  String.mk (List.intercalate ['\n'] (ls.map String.toList))

/-- `s.trim()` (whitespace at both ends removed). -/
def jsTrim (s : String) : String :=
  String.mk (((s.toList.dropWhile Char.isWhitespace).reverse.dropWhile
    Char.isWhitespace).reverse)

/-- Modelled from the spec: the pattern construction of spec §4.5 step 4,
which is absent from the source — "escape all regex metacharacters in the
literal text, then replace every literal ellipsis token (`...`) with a
wildcard that matches any content, including newlines".  The literal
segments between ellipsis tokens are escaped and the tokens become `.*?`
(under the `s` flag a dotall wildcard). -/
def escapeRegExpChars (cs : List Char) : List Char :=
  cs.flatMap fun c =>
    if c ∈ ['.', '*', '+', '?', '^', '$', '\x7b', '\x7d', '(', ')', '|', '[', ']', '\\']
    then ['\\', c] else [c]

/-- Splits on the literal token `...` (non-overlapping, left to right). -/
def splitOnEllipsis : List Char → List (List Char)
  | '.' :: '.' :: '.' :: rest => [] :: splitOnEllipsis rest
  | c :: rest =>
      match splitOnEllipsis rest with
      | [] => [[c]]
      | seg :: segs => (c :: seg) :: segs
  | [] => [[]]

/-- Modelled from the spec: see `escapeRegExpChars`. -/
def buildSearchPatternSpec (search : String) : String :=
  String.mk (List.intercalate ['.', '*', '?']
    ((splitOnEllipsis search.toList).map escapeRegExpChars))

theorem buildSearchPattern_literal_sample : buildSearchPattern "b\nc" = "b\nc" := rfl

theorem buildSearchPattern_ellipsis_sample : buildSearchPattern "a...b" = "a.*?b" := rfl

theorem jsRegexTest_literal_sample : jsRegexTest "b\nc" "b\nc" = true := by decide

theorem jsRegexTest_nomatch_sample : jsRegexTest "q" "b\nc" = false := by decide

theorem splitLines_sample : splitLines "a\nb\nc" = ["a", "b", "c"] := by decide

theorem splitLines_empty : splitLines "" = [""] := by decide

theorem jsTrim_sample : jsTrim "  1-5 " = "1-5" := by decide

/- ### `parseLineRanges` (widget-file-manager.controller.ts, lines 213-235)

`parseInt(s, 10)`: skip leading whitespace, optional sign, then the longest
prefix of decimal digits; `NaN` (here `none`) if that prefix is empty. -/

def decDigitsPrefixVal (cs : List Char) : Option Nat :=
  let ds := cs.takeWhile Char.isDigit
  if ds.isEmpty then none
  else some (ds.foldl (fun a c => a * 10 + (c.toNat - 48)) 0)

def parseIntJS (s : String) : Option Int :=
  match s.toList.dropWhile Char.isWhitespace with
  | '-' :: rest => (decDigitsPrefixVal rest).map fun n => -(n : Int)
  | '+' :: rest => (decDigitsPrefixVal rest).map fun n => (n : Int)
  | cs => (decDigitsPrefixVal cs).map fun n => (n : Int)

/-- The `{start, end}` records pushed by `parseLineRanges` (the source
field `end` is a Lean keyword and is called `stop` here). -/
structure LineRange where
  start : Int
  stop : Int
deriving Repr, DecidableEq

/-- `parseLineRanges(lines)`: split on `,`, trim each part; a part
containing `-` is split on `-` and its first two pieces parsed
(`const [start, end] = part.split('-').map(...)`), kept when both are
numbers and `start <= end`; otherwise the part itself is parsed and kept
when it is a number. -/
def parseLineRanges (lines : String) : List LineRange :=
  let parts := ((splitOnCharList ',' lines.toList).map String.mk).map jsTrim
  parts.filterMap fun part =>
    if part.toList.contains '-' then
      let nums := ((splitOnCharList '-' part.toList).map String.mk).map
        fun s => parseIntJS (jsTrim s)
      match nums[0]?, nums[1]? with
      | some (some a), some (some b) => if a ≤ b then some ⟨a, b⟩ else none
      | _, _ => none
    else
      match parseIntJS part with
      | some n => some ⟨n, n⟩
      | none => none

theorem parseLineRanges_pair_sample :
    parseLineRanges "1-50, 100-150" = [⟨1, 50⟩, ⟨100, 150⟩] := by decide

theorem parseLineRanges_bare_sample : parseLineRanges "7" = [⟨7, 7⟩] := by decide

theorem parseLineRanges_malformed_dropped :
    parseLineRanges "5-2, x-3, 4" = [⟨4, 4⟩] := by decide

theorem parseLineRanges_zero_sample : parseLineRanges "0" = [⟨0, 0⟩] := by decide

/- ### `extractLines` (lines 240-260)

For each range, the JS loop runs `i` from `range.start - 1` up to
`min(range.end, lines.length) - 1` and pushes `` `${i + 1}|${lines[i]}` ``
for every `i >= 0`.  The effective `Nat` index window is therefore
`[max 0 (start-1), min end lines.length)`. -/

def extractRange (lines : List String) (r : LineRange) : List String :=
  let hi : Nat := (min r.stop (lines.length : Int)).toNat
  let lo : Nat := (max 0 (r.start - 1)).toNat
  ((List.range hi).drop lo).map fun i => toString (i + 1) ++ "|" ++ lines.getD i ""

def extractLines (content : String) (ranges : List LineRange) : String :=
  let lines := splitLines content
  joinLines (ranges.flatMap (extractRange lines))

theorem extractLines_sample : extractLines "a\nb\nc\nd" [⟨2, 3⟩] = "2|b\n3|c" := by
  decide

theorem extractLines_clipped_sample : extractLines "a\nb" [⟨1, 9⟩] = "1|a\n2|b" := by
  decide

/- ### Result and argument records (widget-file-manager.types.ts) -/

structure FileOperationResult where
  success : Bool
  message : String
  filePath : Option String := none
  error : Option String := none
deriving Repr, DecidableEq

structure FileViewResult extends FileOperationResult where
  content : Option String := none
  totalLines : Option Nat := none
  linesShown : Option String := none
deriving Repr, DecidableEq

structure SearchMatch where
  filePath : String
  line : Nat
  column : Nat
  matchText : String
  beforeContext : List String
  afterContext : List String
deriving Repr, DecidableEq

structure FileSearchResult extends FileOperationResult where
  «matches» : Option (List SearchMatch) := none
  totalMatches : Option Nat := none
  searchPattern : Option String := none
deriving Repr, DecidableEq

structure WidgetWriteFileArgs where
  widgetId : String
  filePath : String
  content : String
deriving Repr, DecidableEq

structure WidgetViewFileArgs where
  widgetId : String
  filePath : String
  lines : Option String := none
deriving Repr, DecidableEq

structure WidgetDeleteFileArgs where
  widgetId : String
  filePath : String
  removeFromIndex : Bool := true
deriving Repr, DecidableEq

structure WidgetSearchFilesArgs where
  widgetId : String
  query : String
  includePattern : String
  excludePattern : Option String := none
  caseSensitive : Bool := false
  contextLines : Nat := 3
deriving Repr, DecidableEq

structure WidgetLineReplaceArgs where
  widgetId : String
  filePath : String
  search : String
  firstReplacedLine : Nat
  lastReplacedLine : Nat
  replace : String
deriving Repr, DecidableEq

/- ### Collaborators and the `try { ... } catch { ... }` wrappers

Every controller body runs inside `try { ... } catch (error) { ... }`.
A body is an `Except String α` (collaborator failures propagate as
`Except.error`, the controller's thrown exceptions); a `catch` block that
converts the exception into an ordinary result value is `tryCatchE`.  A
controller that can itself throw to its caller keeps the type
`Except String α`. -/

def tryCatchE (body : Except String α) (handler : String → α) : Except String α :=
  match body with
  | .ok a => .ok a
  | .error e => .ok (handler e)

/-- The fetched widget files: the `files` record of `getWidgetFiles`,
as an association list from file path to content. -/
abbrev WidgetFiles := List (String × String)

/-- `!widgetData?.files || !widgetData.files[args.filePath]`: a missing
key and an empty-string content are both falsy in JS. -/
def fileLookupTruthy (files : WidgetFiles) (path : String) : Option String :=
  match files.lookup path with
  | none => none
  | some c => if c = "" then none else some c

/- ### `writeFile` (lines 350-408)

Collaborators: the `embeddable-widget-src-update` Lambda (`invokeLambda`),
whose outcome is the `lam` parameter.  The commented-out indexing call has
its own inner try/catch and cannot affect the result. -/

def writeFileE (lam : Except String Unit) (args : WidgetWriteFileArgs) :
    Except String FileOperationResult :=
  tryCatchE
    (do let _ ← lam
        pure { success := true
               message := "File " ++ args.filePath ++ " written successfully"
               filePath := some args.filePath })
    (fun e =>
      { success := false
        message := "Failed to write file " ++ args.filePath
        filePath := some args.filePath
        error := some e })

/- ### `viewFile` (lines 413-488)

Default path (no `lines` argument): show the first
`linesToShow = min(500, allLines.length)` lines, each numbered
`` `${index + 1}|${line}` ``; `linesShown` compares `linesToShow` with the
total line count. -/

/-- `slice.map((line, index) => ...)` numbering from 0-based `index = k`. -/
def numberLinesFrom (k : Nat) : List String → List String
  | [] => []
  | l :: ls => (toString (k + 1) ++ "|" ++ l) :: numberLinesFrom (k + 1) ls

def defaultNumberedLines (content : String) : List String :=
  let allLines := splitLines content
  numberLinesFrom 0 (allLines.take (min 500 allLines.length))

def defaultLinesShown (content : String) : String :=
  let allLines := splitLines content
  let linesToShow := min 500 allLines.length
  if linesToShow = allLines.length then "1-" ++ toString allLines.length
  else "1-" ++ toString linesToShow ++ " (truncated)"

def viewFileBody (files : WidgetFiles) (args : WidgetViewFileArgs) : FileViewResult :=
  match fileLookupTruthy files args.filePath with
  | none =>
      { success := false
        message := "File " ++ args.filePath ++ " not found"
        filePath := some args.filePath
        error := some "File not found" }
  | some content =>
      let displayContent :=
        match args.lines with
        | some linesArg => extractLines content (parseLineRanges linesArg)
        | none => joinLines (defaultNumberedLines content)
      let linesShown :=
        match args.lines with
        | some linesArg => linesArg
        | none => defaultLinesShown content
      { success := true
        message := "File " ++ args.filePath ++ " retrieved successfully"
        filePath := some args.filePath
        content := some displayContent
        totalLines := some (splitLines content).length
        linesShown := some linesShown }

def viewFileE (fetched : Except String WidgetFiles) (args : WidgetViewFileArgs) :
    Except String FileViewResult :=
  tryCatchE
    (do let files ← fetched
        pure (viewFileBody files args))
    (fun e =>
      { success := false
        message := "Failed to view file " ++ args.filePath
        filePath := some args.filePath
        error := some e })

/- ### `deleteFile` (lines 493-545)

The index-removal branch is commented out in the source and its inner
try/catch cannot affect the result. -/

def deleteFileE (lam : Except String Unit) (args : WidgetDeleteFileArgs) :
    Except String FileOperationResult :=
  tryCatchE
    (do let _ ← lam
        pure { success := true
               message := "File " ++ args.filePath ++ " deleted successfully"
               filePath := some args.filePath })
    (fun e =>
      { success := false
        message := "Failed to delete file " ++ args.filePath
        filePath := some args.filePath
        error := some e })

/- ### The match-scanning loop of `searchInMongoDB` (lines 312-336)

`searchRegex = new RegExp(query, 'gi')`; per line,
`searchRegex.lastIndex = 0` and then
`while ((match = searchRegex.exec(line)) !== null) { matches.push(...) }`.

`exec` on a global regex finds the first match starting at a position
`>= lastIndex` and then sets `lastIndex = match.index + match[0].length`
— in particular a zero-length match leaves `lastIndex` unchanged and the
`while` loop never exits.  An exec step is modelled as a function from the
current `lastIndex` to `Option (matchIndex × matchLength)`; the while loop
is `scanLineFuel`, with fuel standing for the number of iterations
observed: `none` means the loop has not finished within `fuel`
iterations (for every fuel, in the non-terminating case). -/

def scanLineFuel (exec : Nat → Option (Nat × Nat)) :
    Nat → Nat → Option (List (Nat × Nat))
  | 0, _ => none
  | fuel + 1, lastIndex =>
      match exec lastIndex with
      | none => some []
      | some (idx, len) =>
          (scanLineFuel exec fuel (idx + len)).map (fun ms => (idx, len) :: ms)

/-- `exec` of `new RegExp(query, 'gi')` when `query` is a literal (no
metacharacters): the first case-insensitive occurrence of `pat` in `line`
at a position `>= start`. -/
def litExec (pat line : String) (start : Nat) : Option (Nat × Nat) :=
  ((List.range (line.length + 1)).find? fun j =>
      decide (start ≤ j) &&
        List.isPrefixOf (pat.toList.map Char.toLower)
          ((line.toList.drop j).map Char.toLower)).map
    fun j => (j, pat.length)

/-- `exec` of `new RegExp("a*", 'gi')` on `line`: `a*` matches at every
position `<= line.length` (greedily taking the run of `a`/`A` starting
there, possibly empty), so the first match starts exactly at `lastIndex`;
when `lastIndex` has moved past the end, `exec` fails. -/
def astarExec (line : String) (start : Nat) : Option (Nat × Nat) :=
  if start ≤ line.length then
    some (start, ((line.toList.drop start).takeWhile fun c => c.toLower = 'a').length)
  else none

theorem scanLineFuel_lit_sample :
    scanLineFuel (litExec "aa" "aa bb aa") 10 0 = some [(0, 2), (6, 2)] := by decide

theorem scanLineFuel_astar_sample : scanLineFuel (astarExec "b") 50 0 = none := by
  decide

/-- `arr.slice(a, b)` for `0 <= a`, `b` clamped to the length. -/
def jsSlice (l : List α) (a b : Nat) : List α := (l.take b).drop a

/-- `doc.lineStart || 1`: JS `||` takes the right operand when the left is
falsy, and both `undefined` and `0` are falsy. -/
def jsOrOne : Option Nat → Nat
  | none => 1
  | some 0 => 1
  | some n => n

/-- A `code`-type document of the `embedded_files` collection as consumed
by the match loop. -/
structure EmbeddedFileDoc where
  filePath : String
  content : String
  lineStart : Option Nat := none
deriving Repr, DecidableEq

/-- The `SearchMatch` records pushed for line `i` of a document: 1-indexed
line `(doc.lineStart || 1) + i` and column `match.index + 1`, the matched
substring, and the hard-coded three-line context windows
`lines.slice(Math.max(0, i - 3), i)` and
`lines.slice(i + 1, Math.min(lines.length, i + 4))`. -/
def docLineMatches (exec : String → Nat → Option (Nat × Nat)) (fuel : Nat)
    (doc : EmbeddedFileDoc) (lines : List String) (i : Nat) (line : String) :
    Option (List SearchMatch) :=
  (scanLineFuel (exec line) fuel 0).map fun ms =>
    ms.map fun m =>
      { filePath := doc.filePath
        line := jsOrOne doc.lineStart + i
        column := m.1 + 1
        matchText := String.mk ((line.toList.drop m.1).take m.2)
        beforeContext := jsSlice lines (i - 3) i
        afterContext := jsSlice lines (i + 1) (min lines.length (i + 4)) }

/-- All matches of one document (`none` as soon as one line's scan loop
does not finish). -/
def docMatches (exec : String → Nat → Option (Nat × Nat)) (fuel : Nat)
    (doc : EmbeddedFileDoc) : Option (List SearchMatch) :=
  let lines := splitLines doc.content
  ((List.range lines.length).mapM fun i =>
      docLineMatches exec fuel doc lines i (lines.getD i "")).map List.flatten

/-- `results.forEach(...)` over the documents returned by MongoDB. -/
def mongoSearchMatches (exec : String → Nat → Option (Nat × Nat)) (fuel : Nat)
    (docs : List EmbeddedFileDoc) : Option (List SearchMatch) :=
  ((docs.mapM (docMatches exec fuel))).map List.flatten

/-- `searchFiles` derives `searchType` from whether `includePattern`
contains `*` (line 558); the type only selects the MongoDB query, not the
scanning. -/
def searchTypeOf (includePattern : String) : String :=
  if includePattern.toList.contains '*' then "filename" else "exact"

/-- `searchFiles` scanning the documents the collaborator returned: the
`args.contextLines` and `args.caseSensitive` fields are accepted but never
used by the controller (`searchInMongoDB` hard-codes 3 context lines and
the `i` flag). -/
def searchFilesMatches (args : WidgetSearchFilesArgs) (fuel : Nat)
    (docs : List EmbeddedFileDoc) : Option (List SearchMatch) :=
  mongoSearchMatches (litExec args.query) fuel docs

def searchFilesE (mongo : Except String (List SearchMatch))
    (args : WidgetSearchFilesArgs) : Except String FileSearchResult :=
  tryCatchE
    (do let ms ← mongo
        pure { success := true
               message := "Search completed. Found " ++ toString ms.length ++ " matches"
               «matches» := some ms
               totalMatches := some ms.length
               searchPattern := some args.query })
    (fun e =>
      { success := false
        message := "Failed to search files in widget " ++ args.widgetId
        error := some e })

/- ### `widget-search.controller.ts` -/

inductive MatchType where
  | semantic
  | exact
  | filename
deriving Repr, DecidableEq

/-- `SearchResult` (widget-search.types.ts): `score` and `granularity`
are only set on semantic results. -/
structure SearchResult where
  filePath : String
  content : String
  lineStart : Option Nat := none
  lineEnd : Option Nat := none
  matchType : MatchType
  score : Option ℚ := none
  granularity : Option String := none
deriving Repr, DecidableEq

/-- A document as surfaced to the aggregation stages after
`$vectorSearch` + `$project` (`score` is the `vectorSearchScore` meta;
similarity scores are modelled as exact rationals). -/
structure VectorDoc where
  filePath : String
  content : String
  lineStart : Option Nat := none
  lineEnd : Option Nat := none
  granularity : Option String := none
  docType : String
  score : ℚ
deriving Repr, DecidableEq

/-- The `0.4` of the pipeline's `$match: { score: { $gte: 0.4 } }`. -/
def scoreThreshold : ℚ := mkRat 2 5

/-- `runVectorSearchForWidget` (lines 32-112) after the `$vectorSearch`
stage: the collaborator (`$vectorSearch`) returns at most `limit`
candidates ranked by similarity; the remaining pipeline stages keep the
`type: 'code'` documents with `score >= 0.4`, and the `forEach` tags each
one `matchType: 'semantic'` with `score` and `granularity` copied over. -/
def runVectorSearchForWidget (cands : List VectorDoc) : List SearchResult :=
  ((cands.filter fun d => d.docType = "code").filter
      fun d => scoreThreshold ≤ d.score).map
    fun d =>
      { filePath := d.filePath
        content := d.content
        lineStart := d.lineStart
        lineEnd := d.lineEnd
        granularity := d.granularity
        score := some d.score
        matchType := .semantic }

/-- The `search` controller (lines 218-268).  Its `catch` block re-throws
(`throw error`, "to be handled by the calling tool"), so a collaborator
failure propagates to the caller; on success the results are serialized
into the response (serialization is not modelled, the payload is kept). -/
def searchController (collab : Except String (List SearchResult)) :
    Except String (List SearchResult) :=
  match collab with
  | .ok results => .ok results
  | .error e => .error e

/- ### `replaceLines` (lines 599-723) -/

/-- The body of `replaceLines` once `getWidgetFiles` has succeeded.
Returns the controller result together with the list of
`(filePath, content)` writes issued to the store (via `writeFile`).
`lam` is the outcome of the `embeddable-widget-src-update` Lambda call
made by the inner `writeFile`. -/
def replaceLinesBody (files : WidgetFiles) (lam : Except String Unit)
    (args : WidgetLineReplaceArgs) : FileOperationResult × List (String × String) :=
  match fileLookupTruthy files args.filePath with
  | none =>
      ({ success := false
         message := "File " ++ args.filePath ++ " not found"
         filePath := some args.filePath
         error := some "File not found" }, [])
  | some originalContent =>
      let lines := splitLines originalContent
      if args.firstReplacedLine < 1 ∨ args.lastReplacedLine < 1 ∨
          args.firstReplacedLine > lines.length ∨
          args.lastReplacedLine > lines.length ∨
          args.firstReplacedLine > args.lastReplacedLine then
        ({ success := false
           message := "Invalid line range: " ++ toString args.firstReplacedLine
             ++ "-" ++ toString args.lastReplacedLine
           filePath := some args.filePath
           error := some "Invalid line range" }, [])
      else
        let targetLines := jsSlice lines (args.firstReplacedLine - 1) args.lastReplacedLine
        let targetContent := joinLines targetLines
        if jsRegexTest (buildSearchPattern args.search) targetContent = false then
          ({ success := false
             message := "Search pattern does not match content at lines "
               ++ toString args.firstReplacedLine ++ "-" ++ toString args.lastReplacedLine
             filePath := some args.filePath
             error := some "Search pattern mismatch" }, [])
        else
          let newLines := lines.take (args.firstReplacedLine - 1)
            ++ splitLines args.replace ++ lines.drop args.lastReplacedLine
          let newContent := joinLines newLines
          match writeFileE lam ⟨args.widgetId, args.filePath, newContent⟩ with
          | .ok writeResponse =>
              if writeResponse.success then
                ({ success := true
                   message := "Successfully replaced lines "
                     ++ toString args.firstReplacedLine ++ "-"
                     ++ toString args.lastReplacedLine ++ " in " ++ args.filePath
                   filePath := some args.filePath }, [(args.filePath, newContent)])
              else (writeResponse, [(args.filePath, newContent)])
          | .error e =>
              ({ success := false
                 message := "Failed to replace lines in file " ++ args.filePath
                 filePath := some args.filePath
                 error := some e }, [(args.filePath, newContent)])

def replaceLinesE (fetched : Except String WidgetFiles) (lam : Except String Unit)
    (args : WidgetLineReplaceArgs) :
    Except String (FileOperationResult × List (String × String)) :=
  tryCatchE
    (do let files ← fetched
        pure (replaceLinesBody files lam args))
    (fun e =>
      ({ success := false
         message := "Failed to replace lines in file " ++ args.filePath
         filePath := some args.filePath
         error := some e }, []))

theorem replaceLinesBody_write_sample :
    (replaceLinesBody [("/f.ts", "a\nb\nc\nd")] (.ok ())
      ⟨"w", "/f.ts", "b\nc", 2, 3, "X\nY\nZ"⟩).2
      = [("/f.ts", "a\nX\nY\nZ\nd")] := by decide

/- ### Theorems -/

theorem replaceLinesE_ok (files : WidgetFiles) (lam : Except String Unit)
    (args : WidgetLineReplaceArgs) :
    replaceLinesE (.ok files) lam args = .ok (replaceLinesBody files lam args) := rfl

/-- The example of spec §8 line 90 under the spec's own pattern
construction (metacharacters escaped, then `...` replaced by a dotall
wildcard): the pattern does match the function body. -/
theorem buildSearchPatternSpec_matches_braced_function :
    jsRegexTest (buildSearchPatternSpec "function f() \x7b\n...\n\x7d")
      "function f() \x7b\n  x();\n  y();\n\x7d" = true := by decide

/-- C1: the claim says `replaceLines` escapes all regex metacharacters of
the caller's `search` text before replacing `...` with a wildcard, so that
on content `"function f() {\n  x();\n  y();\n}"` with lines 1-4 and
`search = "function f() {\n...\n}"` the replace succeeds.  The source
never escapes (it only substitutes `...`), the unescaped `()` becomes an
empty group and the pattern fails to match, so this very call returns the
pattern-mismatch failure and issues no write. -/
theorem C1_replaceLines_does_not_escape_metacharacters :
    replaceLinesE (.ok [("/f.ts", "function f() \x7b\n  x();\n  y();\n\x7d")]) (.ok ())
      { widgetId := "w", filePath := "/f.ts",
        search := "function f() \x7b\n...\n\x7d",
        firstReplacedLine := 1, lastReplacedLine := 4,
        replace := "function g() \x7b\n\x7d" }
      = .ok ({ success := false
               message := "Search pattern does not match content at lines 1-4"
               filePath := some "/f.ts"
               error := some "Search pattern mismatch" }, []) := by rfl

/-- C2: a `replaceLines` call that passes range validation and whose built
pattern matches the target slice writes, as the entire file, original
lines `1..firstLine-1`, then the replacement split on newline, then
original lines `lastLine+1..end`, joined with newline. -/
theorem C2_replaceLines_splices (files : WidgetFiles) (lam : Except String Unit)
    (args : WidgetLineReplaceArgs) (content : String)
    (hfile : fileLookupTruthy files args.filePath = some content)
    (h1 : 1 ≤ args.firstReplacedLine)
    (h2 : args.firstReplacedLine ≤ args.lastReplacedLine)
    (h3 : args.lastReplacedLine ≤ (splitLines content).length)
    (hmatch : jsRegexTest (buildSearchPattern args.search)
      (joinLines (jsSlice (splitLines content)
        (args.firstReplacedLine - 1) args.lastReplacedLine)) = true) :
    ∃ r, replaceLinesE (.ok files) lam args
      = .ok (r, [(args.filePath,
          joinLines ((splitLines content).take (args.firstReplacedLine - 1)
            ++ splitLines args.replace
            ++ (splitLines content).drop args.lastReplacedLine))]) := by
  rw [replaceLinesE_ok]
  unfold replaceLinesBody
  rw [hfile]
  dsimp only
  rw [if_neg (by omega :
    ¬(args.firstReplacedLine < 1 ∨ args.lastReplacedLine < 1 ∨
      args.firstReplacedLine > (splitLines content).length ∨
      args.lastReplacedLine > (splitLines content).length ∨
      args.firstReplacedLine > args.lastReplacedLine))]
  rw [if_neg (by simp [hmatch])]
  cases lam with
  | ok u => exact ⟨_, rfl⟩
  | error e => exact ⟨_, rfl⟩

/-- C2 witness: the spec §8 example `"a\nb\nc\nd"`, lines 2-3,
`search = "b\nc"`, `replace = "X\nY\nZ"` writes `"a\nX\nY\nZ\nd"`. -/
theorem C2_replaceLines_splices_witness :
    ∃ r, replaceLinesE (.ok [("/f.ts", "a\nb\nc\nd")]) (.ok ())
      { widgetId := "w", filePath := "/f.ts", search := "b\nc",
        firstReplacedLine := 2, lastReplacedLine := 3, replace := "X\nY\nZ" }
      = .ok (r, [("/f.ts", "a\nX\nY\nZ\nd")]) := by
  obtain ⟨r, hr⟩ := C2_replaceLines_splices [("/f.ts", "a\nb\nc\nd")] (.ok ())
    { widgetId := "w", filePath := "/f.ts", search := "b\nc",
      firstReplacedLine := 2, lastReplacedLine := 3, replace := "X\nY\nZ" }
    "a\nb\nc\nd" (by decide) (by decide) (by decide) (by decide) (by decide)
  rw [show joinLines ((splitLines "a\nb\nc\nd").take (2 - 1)
      ++ splitLines "X\nY\nZ" ++ (splitLines "a\nb\nc\nd").drop 3)
      = "a\nX\nY\nZ\nd" from by decide] at hr
  exact ⟨r, hr⟩

/-- C3: a `replaceLines` call that passes range validation but whose built
pattern does not match the target slice fails with the pattern-mismatch
error and issues no write to the store. -/
theorem C3_replaceLines_mismatch_no_write (files : WidgetFiles)
    (lam : Except String Unit) (args : WidgetLineReplaceArgs) (content : String)
    (hfile : fileLookupTruthy files args.filePath = some content)
    (h1 : 1 ≤ args.firstReplacedLine)
    (h2 : args.firstReplacedLine ≤ args.lastReplacedLine)
    (h3 : args.lastReplacedLine ≤ (splitLines content).length)
    (hmiss : jsRegexTest (buildSearchPattern args.search)
      (joinLines (jsSlice (splitLines content)
        (args.firstReplacedLine - 1) args.lastReplacedLine)) = false) :
    replaceLinesE (.ok files) lam args
      = .ok ({ success := false
               message := "Search pattern does not match content at lines "
                 ++ toString args.firstReplacedLine ++ "-"
                 ++ toString args.lastReplacedLine
               filePath := some args.filePath
               error := some "Search pattern mismatch" }, []) := by
  rw [replaceLinesE_ok]
  unfold replaceLinesBody
  rw [hfile]
  dsimp only
  rw [if_neg (by omega :
    ¬(args.firstReplacedLine < 1 ∨ args.lastReplacedLine < 1 ∨
      args.firstReplacedLine > (splitLines content).length ∨
      args.lastReplacedLine > (splitLines content).length ∨
      args.firstReplacedLine > args.lastReplacedLine))]
  rw [if_pos hmiss]

/-- C3 witness: the spec §8 example, same range but `search = "q"`, fails
with the pattern-mismatch error and the write list stays empty. -/
theorem C3_replaceLines_mismatch_no_write_witness :
    replaceLinesE (.ok [("/f.ts", "a\nb\nc\nd")]) (.ok ())
      { widgetId := "w", filePath := "/f.ts", search := "q",
        firstReplacedLine := 2, lastReplacedLine := 3, replace := "X\nY\nZ" }
      = .ok ({ success := false
               message := "Search pattern does not match content at lines 2-3"
               filePath := some "/f.ts"
               error := some "Search pattern mismatch" }, []) := by
  have h := C3_replaceLines_mismatch_no_write [("/f.ts", "a\nb\nc\nd")] (.ok ())
    { widgetId := "w", filePath := "/f.ts", search := "q",
      firstReplacedLine := 2, lastReplacedLine := 3, replace := "X\nY\nZ" }
    "a\nb\nc\nd" (by decide) (by decide) (by decide) (by decide) (by decide)
  rw [h]
  rfl

/-- C4 counterexample: the `search` controller's `catch` block re-throws,
so when the collaborator (MongoDB/OpenAI via `searchCodebase`) throws, the
exception propagates out of the component instead of a structured result
being returned. -/
theorem C4_search_rethrows_counterexample :
    searchController (.error "MongoDB connection failed")
      = .error "MongoDB connection failed" := rfl

/-- C4 amended: the five widget-file-manager operations (`writeFile`,
`viewFile`, `deleteFile`, `searchFiles`, `replaceLines`) catch internally
and return a structured result object for every collaborator behavior;
the hybrid `search` operation instead returns its payload on success but
re-throws a collaborator exception to its caller (the tool layer). -/
theorem C4_operations_catch_except_search (lam lamDel : Except String Unit)
    (fetched : Except String WidgetFiles)
    (mongo : Except String (List SearchMatch))
    (wargs : WidgetWriteFileArgs) (vargs : WidgetViewFileArgs)
    (dargs : WidgetDeleteFileArgs) (sargs : WidgetSearchFilesArgs)
    (rargs : WidgetLineReplaceArgs) (e : String) (results : List SearchResult) :
    (∃ r, writeFileE lam wargs = .ok r) ∧
    (∃ r, viewFileE fetched vargs = .ok r) ∧
    (∃ r, deleteFileE lamDel dargs = .ok r) ∧
    (∃ r, searchFilesE mongo sargs = .ok r) ∧
    (∃ rres, replaceLinesE fetched lam rargs = .ok rres) ∧
    searchController (.ok results) = .ok results ∧
    searchController (.error e) = .error e := by
  refine ⟨?_, ?_, ?_, ?_, ?_, rfl, rfl⟩
  · cases lam with
    | ok u => exact ⟨_, rfl⟩
    | error msg => exact ⟨_, rfl⟩
  · cases fetched with
    | ok files => exact ⟨_, rfl⟩
    | error msg => exact ⟨_, rfl⟩
  · cases lamDel with
    | ok u => exact ⟨_, rfl⟩
    | error msg => exact ⟨_, rfl⟩
  · cases mongo with
    | ok ms => exact ⟨_, rfl⟩
    | error msg => exact ⟨_, rfl⟩
  · cases fetched with
    | ok files => exact ⟨_, rfl⟩
    | error msg => exact ⟨_, rfl⟩

theorem scanLineFuel_astar_stuck (fuel : Nat) :
    scanLineFuel (astarExec "b") fuel 0 = none := by
  induction fuel with
  | zero => rfl
  | succ n ih =>
      have hstep : astarExec "b" 0 = some (0, 0) := by decide
      simp only [scanLineFuel, hstep, ih, Option.map_none']

/-- C5: the claim says the per-line `while ((match = searchRegex.exec(line))
!== null)` loop always terminates with a finite list of `SearchMatch`
records, even for patterns matching the empty string such as `a*`.  It does
not: `exec` leaves `lastIndex` unchanged on a zero-length match, so on the
query `a*` and a line `"b"` the loop revisits the same state forever — for
every iteration bound the scan of the document has not finished. -/
theorem C5_scan_loop_never_terminates_on_astar (fuel : Nat) :
    docMatches astarExec fuel { filePath := "/a.ts", content := "b" } = none := by
  have h := scanLineFuel_astar_stuck fuel
  simp only [docMatches, docLineMatches, splitLines]
  simp only [show (splitOnCharList '\n' "b".toList).map String.mk = ["b"] from by decide]
  simp only [List.length_singleton, show List.range 1 = [0] from rfl,
    List.mapM_cons, List.mapM_nil, List.getD_cons_zero, h]
  rfl

/-- C6: for a semantic search whose `$vectorSearch` collaborator returns at
most `limit` candidates in descending score order (each carrying a
granularity tag), every returned result has `score >= 0.4` with
`matchType = semantic` and `score`/`granularity` populated, at most
`limit` results are returned, and the descending score order is kept. -/
theorem C6_semantic_search_filtered_capped_sorted (cands : List VectorDoc)
    (limit : Nat)
    (hlen : cands.length ≤ limit)
    (hsorted : List.Pairwise (fun a b => b.score ≤ a.score) cands)
    (hgran : ∀ d ∈ cands, d.granularity.isSome = true) :
    (runVectorSearchForWidget cands).length ≤ limit ∧
    List.Pairwise (fun a b => b.score.getD 0 ≤ a.score.getD 0)
      (runVectorSearchForWidget cands) ∧
    ∀ r ∈ runVectorSearchForWidget cands,
      r.matchType = .semantic ∧
      (∃ q, r.score = some q ∧ scoreThreshold ≤ q) ∧
      r.granularity.isSome = true := by
  have hsub : ((cands.filter fun d => d.docType = "code").filter
      fun d => scoreThreshold ≤ d.score).Sublist cands :=
    (List.filter_sublist _).trans (List.filter_sublist _)
  refine ⟨?_, ?_, ?_⟩
  · calc (runVectorSearchForWidget cands).length
        = ((cands.filter fun d => d.docType = "code").filter
            fun d => scoreThreshold ≤ d.score).length := List.length_map _ _
      _ ≤ cands.length := hsub.length_le
      _ ≤ limit := hlen
  · unfold runVectorSearchForWidget
    rw [List.pairwise_map]
    exact (hsorted.sublist hsub).imp fun hab => hab
  · intro r hr
    rw [runVectorSearchForWidget, List.mem_map] at hr
    obtain ⟨d, hd, rfl⟩ := hr
    have hd2 := hd
    rw [List.mem_filter, decide_eq_true_eq] at hd2
    refine ⟨rfl, ⟨d.score, rfl, hd2.2⟩, ?_⟩
    exact hgran d (hsub.subset hd)

/-- C6 witness: two `code` candidates with scores 9/10 and 1/2 under
`limit = 2` keep the cap and the descending order. -/
theorem C6_semantic_search_witness :
    (runVectorSearchForWidget
      [{ filePath := "/a.tsx", content := "ca", granularity := some "file",
         docType := "code", score := mkRat 9 10 },
       { filePath := "/b.tsx", content := "cb", granularity := some "chunk",
         docType := "code", score := mkRat 1 2 }]).length ≤ 2 ∧
    List.Pairwise (fun a b => b.score.getD 0 ≤ a.score.getD 0)
      (runVectorSearchForWidget
        [{ filePath := "/a.tsx", content := "ca", granularity := some "file",
           docType := "code", score := mkRat 9 10 },
         { filePath := "/b.tsx", content := "cb", granularity := some "chunk",
           docType := "code", score := mkRat 1 2 }]) := by
  have h := C6_semantic_search_filtered_capped_sorted
    [{ filePath := "/a.tsx", content := "ca", granularity := some "file",
       docType := "code", score := mkRat 9 10 },
     { filePath := "/b.tsx", content := "cb", granularity := some "chunk",
       docType := "code", score := mkRat 1 2 }] 2
    (by decide) (by decide) (by decide)
  exact ⟨h.1, h.2.1⟩

/-- C7: the claim says each match carries up to `contextLines` (the
caller's argument, default 3) lines of context.  The controller never
passes `contextLines` on: `searchInMongoDB` hard-codes
`lines.slice(Math.max(0, i - 3), i)` and
`lines.slice(i + 1, Math.min(lines.length, i + 4))`.  With
`contextLines = 1` the match on line 4 still carries three before-context
lines. -/
theorem C7_contextLines_argument_ignored :
    searchFilesMatches
      { widgetId := "w", query := "hit", includePattern := "src/**",
        contextLines := 1 } 20
      [{ filePath := "/a.ts", content := "l1\nl2\nl3\nhit\nl5" }]
      = some [{ filePath := "/a.ts", line := 4, column := 1, matchText := "hit",
                beforeContext := ["l1", "l2", "l3"], afterContext := ["l5"] }] := by
  decide

theorem numberLinesFrom_length (k : Nat) (ls : List String) :
    (numberLinesFrom k ls).length = ls.length := by
  induction ls generalizing k with
  | nil => rfl
  | cons l ls ih => simp [numberLinesFrom, ih]

theorem numberLinesFrom_getD (ls : List String) (k i : Nat) (h : i < ls.length) :
    (numberLinesFrom k ls).getD i "" = toString (k + i + 1) ++ "|" ++ ls.getD i "" := by
  induction ls generalizing k i with
  | nil => simp at h
  | cons l ls ih =>
      cases i with
      | zero => simp [numberLinesFrom]
      | succ j =>
          have hj : j < ls.length := by simpa using h
          have := ih (k + 1) j hj
          simpa [numberLinesFrom, Nat.add_assoc, Nat.add_comm, Nat.add_left_comm] using this

/-- Element `i` of `l.take n` agrees with element `i` of `l` when `i < n`. -/
theorem take_getD (l : List α) (n i : Nat) (d : α) (h : i < n) :
    (l.take n).getD i d = l.getD i d := by
  induction l generalizing n i with
  | nil => simp
  | cons a l ih =>
      cases n with
      | zero => omega
      | succ m =>
          cases i with
          | zero => simp
          | succ j => simpa using ih m j (by omega)

theorem defaultLinesShown_eq (content : String) :
    defaultLinesShown content
      = if (splitLines content).length ≤ 500
        then "1-" ++ toString (splitLines content).length
        else "1-500 (truncated)" := by
  unfold defaultLinesShown
  by_cases h : (splitLines content).length ≤ 500
  · simp only [min_eq_right h, if_pos rfl, if_pos h, if_true]
  · have h5 : min 500 (splitLines content).length = 500 := min_eq_left (by omega)
    simp only [h5, if_neg h]
    rw [if_neg (by omega : ¬(500 = (splitLines content).length))]
    rfl

/-- C8: viewing an existing file with no `lines` argument returns at most
500 numbered lines, line `i` (0-based) being `` `${i+1}|` `` followed by
the file's line `i`; `totalLines` is the file's true line count and
`linesShown` is `"1-N"` when the file has `N <= 500` lines and
`"1-500 (truncated)"` otherwise. -/
theorem C8_viewFile_default_view (files : WidgetFiles) (args : WidgetViewFileArgs)
    (content : String)
    (hlines : args.lines = none)
    (hfile : fileLookupTruthy files args.filePath = some content) :
    (defaultNumberedLines content).length ≤ 500 ∧
    (∀ i, i < (defaultNumberedLines content).length →
      (defaultNumberedLines content).getD i ""
        = toString (i + 1) ++ "|" ++ (splitLines content).getD i "") ∧
    (viewFileBody files args).content = some (joinLines (defaultNumberedLines content)) ∧
    (viewFileBody files args).totalLines = some (splitLines content).length ∧
    (viewFileBody files args).linesShown = some
      (if (splitLines content).length ≤ 500
        then "1-" ++ toString (splitLines content).length
        else "1-500 (truncated)") := by
  have hlen : (defaultNumberedLines content).length
      = min 500 (splitLines content).length := by
    unfold defaultNumberedLines
    rw [numberLinesFrom_length, List.length_take]
    exact min_eq_left (min_le_right _ _)
  refine ⟨?_, ?_, ?_, ?_, ?_⟩
  · rw [hlen]; exact min_le_left _ _
  · intro i hi
    rw [hlen] at hi
    unfold defaultNumberedLines
    have hi' : i < ((splitLines content).take
        (min 500 (splitLines content).length)).length := by
      rw [List.length_take]; omega
    rw [numberLinesFrom_getD _ 0 i hi', Nat.zero_add]
    rw [take_getD _ _ _ _ (lt_of_lt_of_le hi (le_refl _))]
  · unfold viewFileBody
    rw [hfile, hlines]
  · unfold viewFileBody
    rw [hfile]
  · unfold viewFileBody
    rw [hfile, hlines]
    dsimp only
    rw [defaultLinesShown_eq]

/-- C8 witness: viewing `"x\ny"` (2 lines) with no `lines` argument. -/
theorem C8_viewFile_default_view_witness :
    (viewFileBody [("/f.ts", "x\ny")] { widgetId := "w", filePath := "/f.ts" }).totalLines
      = some (splitLines "x\ny").length ∧
    (splitLines "x\ny").length = 2 ∧
    (viewFileBody [("/f.ts", "x\ny")] { widgetId := "w", filePath := "/f.ts" }).linesShown
      = some (if (splitLines "x\ny").length ≤ 500
          then "1-" ++ toString (splitLines "x\ny").length
          else "1-500 (truncated)") := by
  have h := C8_viewFile_default_view [("/f.ts", "x\ny")]
    { widgetId := "w", filePath := "/f.ts" } "x\ny" rfl (by decide)
  exact ⟨h.2.2.2.1, by decide, h.2.2.2.2⟩

theorem scanLineFuel_chain (exec : Nat → Option (Nat × Nat))
    (hexec : ∀ li idx len, exec li = some (idx, len) → li ≤ idx ∧ 1 ≤ len) :
    ∀ fuel li ms, scanLineFuel exec fuel li = some ms →
      List.Chain' (fun a b : Nat × Nat => a.1 < b.1) ms ∧ ∀ m ∈ ms, li ≤ m.1 := by
  intro fuel
  induction fuel with
  | zero => intro li ms h; exact absurd h (by simp [scanLineFuel])
  | succ n ih =>
      intro li ms h
      rw [scanLineFuel] at h
      cases hx : exec li with
      | none =>
          rw [hx] at h
          cases h
          exact ⟨List.chain'_nil, by simp⟩
      | some m =>
          obtain ⟨idx, len⟩ := m
          rw [hx] at h
          dsimp only at h
          cases htail : scanLineFuel exec n (idx + len) with
          | none => rw [htail] at h; cases h
          | some tail =>
              rw [htail] at h
              cases h
              obtain ⟨hchain, hbound⟩ := ih (idx + len) tail htail
              obtain ⟨hle, hlen⟩ := hexec li idx len hx
              refine ⟨List.chain'_cons'.mpr ⟨?_, hchain⟩, ?_⟩
              · intro b hb
                have hbmem : b ∈ tail := by
                  cases tail with
                  | nil => simp at hb
                  | cons t ts =>
                      simp only [List.head?_cons, Option.mem_def, Option.some.injEq] at hb
                      simp [hb]
                have := hbound b hbmem
                omega
              · intro m hm
                rcases List.mem_cons.mp hm with rfl | hm'
                · exact hle
                · have := hbound m hm'
                  omega

theorem litExec_contract (pat line : String) (hpat : pat.length ≥ 1) :
    ∀ li idx len, litExec pat line li = some (idx, len) → li ≤ idx ∧ 1 ≤ len := by
  intro li idx len h
  unfold litExec at h
  rw [Option.map_eq_some'] at h
  obtain ⟨j, hfind, hj⟩ := h
  have hpred := List.find?_some hfind
  rw [Bool.and_eq_true, decide_eq_true_eq] at hpred
  cases hj
  exact ⟨hpred.1, hpat⟩

/-- C9: whenever the per-line scan loop finishes (its `exec` obeying the
JS contract that a returned match starts at or after `lastIndex` and — as
for any literal, nonempty query — has positive length), the produced
`SearchMatch` records of that line have strictly increasing 1-indexed
columns. -/
theorem C9_line_matches_columns_increase (exec : String → Nat → Option (Nat × Nat))
    (fuel : Nat) (doc : EmbeddedFileDoc) (lines : List String) (i : Nat)
    (line : String) (ms : List SearchMatch)
    (hexec : ∀ li idx len, exec line li = some (idx, len) → li ≤ idx ∧ 1 ≤ len)
    (hscan : docLineMatches exec fuel doc lines i line = some ms) :
    List.Chain' (fun a b => a.column < b.column) ms := by
  unfold docLineMatches at hscan
  rw [Option.map_eq_some'] at hscan
  obtain ⟨raw, hraw, rfl⟩ := hscan
  have hchain := (scanLineFuel_chain (exec line) hexec fuel 0 raw hraw).1
  rw [List.chain'_map]
  exact hchain.imp fun h => by simp only []; omega

/-- C9 witness: the line `"aa bb aa"` with query `"aa"` yields exactly two
matches, at columns 1 and 7, and those columns increase. -/
theorem C9_line_matches_columns_increase_witness :
    docLineMatches (litExec "aa") 10 { filePath := "/a.ts", content := "aa bb aa" }
      ["aa bb aa"] 0 "aa bb aa"
      = some [{ filePath := "/a.ts", line := 1, column := 1, matchText := "aa",
                beforeContext := [], afterContext := [] },
              { filePath := "/a.ts", line := 1, column := 7, matchText := "aa",
                beforeContext := [], afterContext := [] }] ∧
    List.Chain' (fun a b => a.column < b.column)
      [({ filePath := "/a.ts", line := 1, column := 1, matchText := "aa",
          beforeContext := [], afterContext := [] } : SearchMatch),
       { filePath := "/a.ts", line := 1, column := 7, matchText := "aa",
         beforeContext := [], afterContext := [] }] := by
  constructor
  · decide
  · exact C9_line_matches_columns_increase (litExec "aa") 10
      { filePath := "/a.ts", content := "aa bb aa" } ["aa bb aa"] 0 "aa bb aa" _
      (litExec_contract "aa" "aa bb aa" (by decide)) (by decide)

/-- C10 counterexample: the bare token `"0"` parses to the range
`{0, 0}`, so the claimed invariant `1 <= start` fails. -/
theorem C10_parseLineRanges_counterexample :
    ((parseLineRanges "0").all fun r => decide (1 ≤ r.start)) = false := by decide

/-- C10 amended: every range produced by `parseLineRanges` satisfies
`start <= end`; malformed tokens are dropped silently, but the lower bound
`1 <= start` is not guaranteed (a non-positive numeric token such as `"0"`
or `"0-5"` is kept as is). -/
theorem C10_parseLineRanges_start_le_stop (s : String) (r : LineRange)
    (hr : r ∈ parseLineRanges s) : r.start ≤ r.stop := by
  unfold parseLineRanges at hr
  rw [List.mem_filterMap] at hr
  obtain ⟨part, _, hf⟩ := hr
  by_cases hdash : part.toList.contains '-'
  · rw [if_pos hdash] at hf
    dsimp only at hf
    set nums := ((splitOnCharList '-' part.toList).map String.mk).map
      (fun s => parseIntJS (jsTrim s)) with hnums
    match h0 : nums[0]?, h1 : nums[1]? with
    | some (some a), some (some b) =>
        rw [h0, h1] at hf
        dsimp only at hf
        by_cases hab : a ≤ b
        · rw [if_pos hab] at hf
          cases hf
          exact hab
        · rw [if_neg hab] at hf
          cases hf
    | some (some _), some none => rw [h0, h1] at hf; cases hf
    | some (some _), none => rw [h0, h1] at hf; cases hf
    | some none, _ => rw [h0] at hf; cases hf
    | none, _ => rw [h0] at hf; cases hf
  · rw [if_neg hdash] at hf
    match hp : parseIntJS part with
    | some n =>
        rw [hp] at hf
        cases hf
        exact le_refl _
    | none => rw [hp] at hf; cases hf

/-- C10 witness: `"2-5"` parses to the range `{2, 5}`, whose bounds are
ordered. -/
theorem C10_parseLineRanges_start_le_stop_witness :
    (⟨2, 5⟩ : LineRange) ∈ parseLineRanges "2-5" ∧ ((2 : Int) ≤ 5) :=
  ⟨by decide, C10_parseLineRanges_start_le_stop "2-5" ⟨2, 5⟩ (by decide)⟩
